import Mathlib

/-!
Shallow embedding of `db/memorystore.go` of the pebble in-memory ACME store.

Go maps keyed by strings are embedded as association lists with
overwrite-on-insert semantics (`alookup` / `ainsert` / `adelete`); the
store-wide and per-entity locks have no observable effect in a sequential
semantics and are dropped; pointer-mutation of entities is embedded by
returning and re-storing updated values.  An operation that can `panic`
returns `Option` (`none` = the process dies); fallible operations return
`Except StoreError _` together with the store as left by the call, so that
"leaves the store unchanged on failure" is a provable statement.
-/

set_option autoImplicit false

universe u

variable {α : Type u}

/-- Go map lookup `m[k]` on an association list: the first binding of `k`. -/
def alookup (k : String) : List (String × α) → Option α
  | [] => none
  | (k', v) :: rest => if k' = k then some v else alookup k rest

/-- Go map write `m[k] = v`: overwrite the binding of `k` if present, else append. -/
def ainsert (k : String) (v : α) : List (String × α) → List (String × α)
  | [] => [(k, v)]
  | (k', v') :: rest => if k' = k then (k, v) :: rest else (k', v') :: ainsert k v rest

/-- Go `delete(m, k)`: drop every binding of `k`. -/
def adelete (k : String) : List (String × α) → List (String × α)
  | [] => []
  | (k', v) :: rest => if k' = k then adelete k rest else (k', v) :: adelete k rest

@[simp] theorem alookup_nil (k : String) : alookup k ([] : List (String × α)) = none := rfl

@[simp] theorem alookup_cons (k k' : String) (v : α) (l : List (String × α)) :
    alookup k ((k', v) :: l) = if k' = k then some v else alookup k l := rfl

@[simp] theorem alookup_ainsert_self (k : String) (v : α) (l : List (String × α)) :
    alookup k (ainsert k v l) = some v := by
  induction l with
  | nil => simp [ainsert]
  | cons hd tl ih =>
    obtain ⟨k', v'⟩ := hd
    by_cases h : k' = k <;> simp [ainsert, h, ih]

theorem alookup_ainsert_ne (k k' : String) (v : α) (l : List (String × α)) (h : k' ≠ k) :
    alookup k' (ainsert k v l) = alookup k' l := by
  induction l with
  | nil => simp [ainsert, alookup, Ne.symm h]
  | cons hd tl ih =>
    obtain ⟨k₀, v₀⟩ := hd
    by_cases h₀ : k₀ = k
    · subst h₀
      simp [ainsert, alookup, Ne.symm h]
    · simp only [ainsert, if_neg h₀, alookup_cons]
      by_cases h₁ : k₀ = k' <;> simp [h₁, ih]

/-! ## Entity types

The entity records (`core.Account`, `core.Order`, `core.Certificate`,
`core.RevokedCertificate`, `core.Authorization`, `core.Challenge`) live in
the repository's `core` package, outside `db/memorystore.go`; their fields
used by the store are taken from the spec's data model (§3) and collaborator
contracts (§6). -/

/-- Public keys as consumed by `keyToID`: a key is either a (possibly nested)
`jose.JSONWebKey` wrapper, a nil wrapper pointer, or raw key material.  The
`encodable` flag records whether `x509.MarshalPKIXPublicKey` succeeds on the
material. -/
inductive JKey where
  | wrap (inner : JKey)
  | wrapNil
  | raw (material : Nat) (encodable : Bool)
deriving DecidableEq, Repr

/-- Modelled from the spec: the hex-encoded SHA-256 digest over the canonical
DER encoding of raw key material (§4.1).  The digest itself is external
cryptography; it is abstracted as an injective encoding of the material,
keeping the property the store relies on: equal key material yields an
identical fingerprint. -/
def sha256hex (material : Nat) : String := "sha256-" ++ toString material

/-- Embeds `keyToID` (src/db/memorystore.go:423-440): recursively unwrap
JSONWebKey wrappers, failing on a nil wrapper, then fingerprint the raw key. -/
def keyToID : JKey → Except String String
  | .wrap inner => keyToID inner
  | .wrapNil => .error "cannot compute ID of nil key"
  | .raw material encodable =>
    if encodable then .ok (sha256hex material) else .error "cannot marshal key"

/-- `keyToID` applied to a possibly-absent key (a nil `crypto.PublicKey` /
nil `*jose.JSONWebKey` behaves like the nil-wrapper case). -/
def keyToIDOpt : Option JKey → Except String String
  | none => .error "cannot compute ID of nil key"
  | some k => keyToID k

/-- `core.Account`: fields used by the store (spec §3). -/
structure Account where
  ID : String
  Key : Option JKey
  Status : String
deriving DecidableEq, Repr

/-- `core.Certificate`: fields used by the store (spec §3, §6). -/
structure Certificate where
  ID : String
  DER : List Nat
  ARIResponse : String
deriving DecidableEq, Repr

abbrev Cert := Certificate

/-- `core.RevokedCertificate`: wraps a certificate plus revocation metadata. -/
structure RevokedCertificate where
  Certificate : Cert
  Reason : Nat
deriving DecidableEq, Repr

/-- `core.Order`: fields used by the store (spec §3, §6). -/
structure Order where
  ID : String
  AccountID : String
  Status : String
  CertificateObject : Option Certificate
  IsReplaced : Bool
deriving DecidableEq, Repr

/-- `core.Authorization`: fields used by the store (spec §3). -/
structure Authorization where
  ID : String
  Status : String
deriving DecidableEq, Repr

/-- `core.Challenge`: fields used by the store (spec §3). -/
structure Challenge where
  ID : String
deriving DecidableEq, Repr

/-- The error kinds of spec §7; each Go error value of `db/memorystore.go`
maps to one kind, keeping its message.  `existingAccount` embeds the
structured `ExistingAccountError` (src/db/memorystore.go:27-33), the only
error carrying a payload. -/
inductive StoreError where
  | validation (msg : String)
  | conflict (msg : String)
  | decodeError (msg : String)
  | notFound (msg : String)
  | encodingError (msg : String)
  | existingAccount (MatchingAccount : Account)
deriving DecidableEq, Repr

/-- Embeds the `MemoryStore` struct (src/db/memorystore.go:38-65), minus the
lock and the random source (the random draws are passed explicitly to
`AddAccount`). -/
structure MemoryStore where
  accountsByID : List (String × Account)
  accountsByKeyID : List (String × Account)
  ordersByIssuedSerial : List (String × Order)
  ordersByID : List (String × Order)
  ordersByAccountID : List (String × List Order)
  authorizationsByID : List (String × Authorization)
  challengesByID : List (String × Challenge)
  certificatesByID : List (String × Certificate)
  revokedCertificatesByID : List (String × RevokedCertificate)
  externalAccountKeysByID : List (String × List Nat)
  blockListByDomain : List (List (List Char))
deriving DecidableEq, Repr

/-- Embeds `NewMemoryStore` (src/db/memorystore.go:67-82): every index empty. -/
def NewMemoryStore : MemoryStore :=
  { accountsByID := []
    accountsByKeyID := []
    ordersByIssuedSerial := []
    ordersByID := []
    ordersByAccountID := []
    authorizationsByID := []
    challengesByID := []
    certificatesByID := []
    revokedCertificatesByID := []
    externalAccountKeysByID := []
    blockListByDomain := [] }

/-! ## Account operations -/

/-- Embeds `GetAccountByID` (src/db/memorystore.go:84-88). -/
def GetAccountByID (id : String) (s : MemoryStore) : Option Account :=
  alookup id s.accountsByID

/-- Embeds `GetAccountByKey` (src/db/memorystore.go:90-99). -/
def GetAccountByKey (key : JKey) (s : MemoryStore) : Except StoreError (Option Account) :=
  match keyToID key with
  | .error msg => .error (.encodingError msg)
  | .ok keyID => .ok (alookup keyID s.accountsByKeyID)

/-- The account-ID generation loop of `AddAccount`
(src/db/memorystore.go:154-160): draw candidates until one is unused.
The draws of the store's random source are passed as `rands`; `none` embeds
the loop never terminating on the supplied draws. -/
def pickFreshID (byID : List (String × Account)) : List String → Option String
  | [] => none
  | r :: rs => if (alookup r byID).isSome then pickFreshID byID rs else some r

/-- Embeds `AddAccount` (src/db/memorystore.go:141-170).  On success the
account, with its freshly assigned ID, is stored in both maps and returned
(the Go code mutates the caller's account in place). -/
def AddAccount (rands : List String) (acct : Account) (s : MemoryStore) :
    Option (Except StoreError (Nat × Account) × MemoryStore) :=
  match acct.Key with
  | none => some (.error (.validation "account must not have a nil Key"), s)
  | some key =>
    match keyToID key with
    | .error msg => some (.error (.encodingError msg), s)
    | .ok keyID =>
      match pickFreshID s.accountsByID rands with
      | none => none
      | some acctID =>
        if (alookup keyID s.accountsByKeyID).isSome then
          some (.error (.conflict "account with key already exists"), s)
        else
          let acct' := { acct with ID := acctID }
          let s₁ := { s with accountsByID := ainsert acctID acct' s.accountsByID }
          let s₂ := { s₁ with accountsByKeyID := ainsert keyID acct' s₁.accountsByKeyID }
          some (.ok (s₂.accountsByID.length, acct'), s₂)

/-- Embeds `ChangeAccountKey` (src/db/memorystore.go:172-195).  On success the
updated account (the Go code mutates `acct.Key` in place) is returned with
the updated store. -/
def ChangeAccountKey (acct : Account) (newKey : JKey) (s : MemoryStore) :
    Except StoreError Account × MemoryStore :=
  match keyToIDOpt acct.Key with
  | .error msg => (.error (.encodingError msg), s)
  | .ok oldKeyID =>
    match keyToID newKey with
    | .error msg => (.error (.encodingError msg), s)
    | .ok newKeyID =>
      match alookup newKeyID s.accountsByKeyID with
      | some otherAccount => (.error (.existingAccount otherAccount), s)
      | none =>
        let s₁ := { s with accountsByKeyID := adelete oldKeyID s.accountsByKeyID }
        let acct' := { acct with Key := some newKey }
        let s₂ := { s₁ with accountsByKeyID := ainsert newKeyID acct' s₁.accountsByKeyID }
        let s₃ := { s₂ with accountsByID := ainsert acct.ID acct' s₂.accountsByID }
        (.ok acct', s₃)

/-! ## Order operations -/

/-- Embeds `AddOrder` (src/db/memorystore.go:197-222). -/
def AddOrder (order : Order) (s : MemoryStore) : Except StoreError Nat × MemoryStore :=
  let orderID := order.ID
  let accountID := order.AccountID
  if orderID = "" then
    (.error (.validation "order must have a non-empty ID to add to MemoryStore"), s)
  else if (alookup orderID s.ordersByID).isSome then
    (.error (.conflict ("order " ++ orderID ++ " already exists")), s)
  else
    let acctOrders := (alookup accountID s.ordersByAccountID).getD []
    let s₁ := { s with ordersByAccountID := ainsert accountID (acctOrders ++ [order]) s.ordersByAccountID }
    let s₂ := { s₁ with ordersByID := ainsert orderID order s₁.ordersByID }
    (.ok s₂.ordersByID.length, s₂)

/-- Embeds `AddOrderByIssuedSerial` (src/db/memorystore.go:224-235). -/
def AddOrderByIssuedSerial (order : Order) (s : MemoryStore) : Except StoreError Unit × MemoryStore :=
  match order.CertificateObject with
  | none => (.error (.validation "order must have non-empty CertificateObject"), s)
  | some certObj =>
    (.ok (), { s with ordersByIssuedSerial := ainsert certObj.ID order s.ordersByIssuedSerial })

/-- Embeds `GetOrderByID` (src/db/memorystore.go:237-252).  `getStatus` is the
externally supplied status-recomputation function (`order.GetStatus()` of the
`core` package, spec §4.3/§6); `getStatus o = none` embeds its failure, on
which the Go code panics — embedded as the outer `none`.  The recomputed
status is written back into the stored order. -/
def GetOrderByID (getStatus : Order → Option String) (id : String) (s : MemoryStore) :
    Option (Option Order × MemoryStore) :=
  match alookup id s.ordersByID with
  | some order =>
    match getStatus order with
    | none => none
    | some orderStatus =>
      let order' := { order with Status := orderStatus }
      some (some order', { s with ordersByID := ainsert id order' s.ordersByID })
  | none => some (none, s)

/-- Embeds `GetOrderByIssuedSerial` (src/db/memorystore.go:256-266); note that
it does not recompute the order's status. -/
def GetOrderByIssuedSerial (serial : String) (s : MemoryStore) : Except StoreError Order :=
  match alookup serial s.ordersByIssuedSerial with
  | none => .error (.notFound "could not find order resulting in the given certificate serial number")
  | some order => .ok order

/-- The status-recomputation loop of `GetOrdersByAccountID`
(src/db/memorystore.go:273-281): recompute every order's status, writing it
back; `none` embeds the panic on the first failure. -/
def recomputeStatuses (getStatus : Order → Option String) : List Order → Option (List Order)
  | [] => some []
  | o :: os =>
    match getStatus o with
    | none => none
    | some st =>
      match recomputeStatuses getStatus os with
      | none => none
      | some rest => some ({ o with Status := st } :: rest)

/-- Embeds `GetOrdersByAccountID` (src/db/memorystore.go:268-285), with the
same `getStatus` convention as `GetOrderByID`. -/
def GetOrdersByAccountID (getStatus : Order → Option String) (accountID : String)
    (s : MemoryStore) : Option (Option (List Order) × MemoryStore) :=
  match alookup accountID s.ordersByAccountID with
  | some orders =>
    match recomputeStatuses getStatus orders with
    | none => none
    | some orders' =>
      some (some orders', { s with ordersByAccountID := ainsert accountID orders' s.ordersByAccountID })
  | none => some (none, s)

/-! ## Certificate operations -/

/-- Embeds `AddCertificate` (src/db/memorystore.go:358-376). -/
def AddCertificate (cert : Certificate) (s : MemoryStore) : Except StoreError Nat × MemoryStore :=
  let certID := cert.ID
  if certID = "" then
    (.error (.validation "cert must have a non-empty ID to add to MemoryStore"), s)
  else if (alookup certID s.certificatesByID).isSome then
    (.error (.conflict ("cert " ++ certID ++ " already exists")), s)
  else if (alookup certID s.revokedCertificatesByID).isSome then
    (.error (.conflict ("cert " ++ certID ++ " already exists (and is revoked)")), s)
  else
    let s₁ := { s with certificatesByID := ainsert certID cert s.certificatesByID }
    (.ok s₁.certificatesByID.length, s₁)

/-- Embeds `GetCertificateByID` (src/db/memorystore.go:378-382). -/
def GetCertificateByID (id : String) (s : MemoryStore) : Option Certificate :=
  alookup id s.certificatesByID

/-- Embeds `RevokeCertificate` (src/db/memorystore.go:412-416): unconditional
insert into the revoked index; no error result, no other index touched. -/
def RevokeCertificate (cert : RevokedCertificate) (s : MemoryStore) : MemoryStore :=
  { s with revokedCertificatesByID := ainsert cert.Certificate.ID cert s.revokedCertificatesByID }

/-! ## External account binding keys -/

/-- One character of the unpadded base64url alphabet, as its 6-bit value
(models Go's `encoding/base64` URL alphabet). -/
def b64UrlVal (c : Char) : Option Nat :=
  if 'A' ≤ c ∧ c ≤ 'Z' then some (c.toNat - 65)
  else if 'a' ≤ c ∧ c ≤ 'z' then some (c.toNat - 97 + 26)
  else if '0' ≤ c ∧ c ≤ '9' then some (c.toNat - 48 + 52)
  else if c = '-' then some 62
  else if c = '_' then some 63
  else none

/-- Map a string to its 6-bit values, failing on the first character outside
the base64url alphabet. -/
def b64UrlVals : List Char → Option (List Nat)
  | [] => some []
  | c :: cs =>
    match b64UrlVal c with
    | none => none
    | some v =>
      match b64UrlVals cs with
      | none => none
      | some vs => some (v :: vs)

/-- Reassemble bytes from 6-bit groups: 4 values give 3 bytes; a trailing
group of 2 or 3 values gives 1 or 2 bytes (surplus low bits dropped, as Go's
non-strict decoder does); a trailing group of 1 value is invalid. -/
def b64Regroup : List Nat → Option (List Nat)
  | [] => some []
  | [_] => none
  | [a, b] => some [a * 4 + b / 16]
  | [a, b, c] => some [a * 4 + b / 16, b % 16 * 16 + c / 4]
  | a :: b :: c :: d :: rest =>
    match b64Regroup rest with
    | none => none
    | some tail => some ((a * 4 + b / 16) :: (b % 16 * 16 + c / 4) :: (c % 4 * 64 + d) :: tail)

/-- Models Go's `base64.RawURLEncoding.DecodeString`: unpadded base64url to
raw bytes, `none` on malformed input. -/
def decodeRawURL (key : String) : Option (List Nat) :=
  match b64UrlVals key.data with
  | none => none
  | some vals => b64Regroup vals

/-- Embeds `AddExternalAccountKeyByID` (src/db/memorystore.go:474-494). -/
def AddExternalAccountKeyByID (keyID key : String) (s : MemoryStore) :
    Except StoreError Unit × MemoryStore :=
  if key.length = 0 ∨ keyID.length = 0 then
    (.error (.validation "key ID and key must not be empty"), s)
  else
    match decodeRawURL key with
    | none => (.error (.decodeError ("failed to decode base64 URL encoded key " ++ key)), s)
    | some keyDecoded =>
      if (alookup keyID s.externalAccountKeysByID).isSome then
        (.error (.conflict ("key ID " ++ keyID ++ " is already present")), s)
      else
        (.ok (), { s with externalAccountKeysByID := ainsert keyID keyDecoded s.externalAccountKeysByID })

/-- Embeds `GetExtenalAccountKeyByID` (src/db/memorystore.go:498-503); the Go
`([]byte, bool)` result is an `Option`. -/
def GetExtenalAccountKeyByID (keyID : String) (s : MemoryStore) : Option (List Nat) :=
  alookup keyID s.externalAccountKeysByID

/-! ## Domain blocklist -/

/-- Models Go's `strings.Split(name, ".")` on the character list: split into
the (possibly empty) runs between dots. -/
def splitOnDot : List Char → List (List Char)
  | [] => [[]]
  | c :: rest =>
    if c = '.' then [] :: splitOnDot rest
    else
      match splitOnDot rest with
      | [] => [[c]]
      | g :: gs => (c :: g) :: gs

/-- The label preprocessing shared by `AddBlockedDomain` and
`IsDomainBlocked` (src/db/memorystore.go:511-516 and 527-532): split on dots
and reverse the label order. -/
def reverseLabels (name : String) : List (List Char) :=
  (splitOnDot name.data).reverse

/-- Embeds `AddBlockedDomain` (src/db/memorystore.go:506-523). -/
def AddBlockedDomain (name : String) (s : MemoryStore) : Except StoreError Unit × MemoryStore :=
  if name.length = 0 then
    (.error (.validation "domain name must not be empty"), s)
  else
    (.ok (), { s with blockListByDomain := s.blockListByDomain ++ [reverseLabels name] })

/-- The inner comparison loop of `IsDomainBlocked`
(src/db/memorystore.go:537-543): `i` ranges over the stored entry's labels
while `domainParts[i]` indexes the query's labels, so a stored entry strictly
longer than a query that matches it so far reads past the end of
`domainParts` — a Go index-out-of-range panic, embedded as `none`. -/
def blockedEntryMatch : List (List Char) → List (List Char) → Option Bool
  | [], _ => some true
  | _ :: _, [] => none
  | b :: bs, d :: ds => if b ≠ d then some false else blockedEntryMatch bs ds

/-- The outer loop of `IsDomainBlocked` (src/db/memorystore.go:536-547). -/
def isBlockedLoop (domainParts : List (List Char)) : List (List (List Char)) → Option Bool
  | [] => some false
  | entry :: rest =>
    match blockedEntryMatch entry domainParts with
    | none => none
    | some true => some true
    | some false => isBlockedLoop domainParts rest

/-- Embeds `IsDomainBlocked` (src/db/memorystore.go:526-550); `none` embeds an
index-out-of-range panic inside the comparison loop. -/
def IsDomainBlocked (name : String) (s : MemoryStore) : Option Bool :=
  isBlockedLoop (reverseLabels name) s.blockListByDomain

/-! ## Concrete fixtures used by counterexamples and witnesses -/

def keyA : JKey := .raw 1 true

def keyB : JKey := .raw 2 true

def acctA : Account := { ID := "A", Key := some keyA, Status := "valid" }

def acctB : Account := { ID := "B", Key := some keyB, Status := "valid" }

/-- A store holding account `A` under its ID and its key fingerprint. -/
def storeA : MemoryStore :=
  { NewMemoryStore with
      accountsByID := [("A", acctA)]
      accountsByKeyID := [(sha256hex 1, acctA)] }

/-- A store holding accounts `A` and `B` in both account maps. -/
def storeAB : MemoryStore :=
  { NewMemoryStore with
      accountsByID := [("A", acctA), ("B", acctB)]
      accountsByKeyID := [(sha256hex 1, acctA), (sha256hex 2, acctB)] }

def certX : Certificate := { ID := "X", DER := [1, 2], ARIResponse := "" }

def rcX : RevokedCertificate := { Certificate := certX, Reason := 0 }

def orderOne : Order :=
  { ID := "o1", AccountID := "a1", Status := "pending"
    CertificateObject := some certX, IsReplaced := false }

def orderTwo : Order :=
  { ID := "o2", AccountID := "a2", Status := "valid"
    CertificateObject := some certX, IsReplaced := false }

/-- A store whose issued-serial index already maps `X` to `orderOne`. -/
def storeSerialX : MemoryStore :=
  { NewMemoryStore with ordersByIssuedSerial := [("X", orderOne)] }

/-! ## C1 / C2: domain blocklist -/

/-- C1: the claim says evaluating IsBlocked never reads past the end of the
query's reversed label list and is total.  The code violates it: after
blocking `foo.example.com` (stored reversed as three labels), the one-label
query `com` matches the entry's first label and the comparison loop then
indexes `domainParts[1]` past the end of the query's labels — a Go
index-out-of-range panic (embedded as `none`) instead of an in-bounds
non-match. -/
theorem C1_isBlocked_reads_past_query_end :
    (AddBlockedDomain "foo.example.com" NewMemoryStore).1 = .ok () ∧
    IsDomainBlocked "com" (AddBlockedDomain "foo.example.com" NewMemoryStore).2 = none :=
  ⟨rfl, rfl⟩

/-- C2: the claimed suffix semantics hold for the queries `example.com`,
`foo.example.com` and `other.com`, but the claim's `IsBlocked("com") = false`
is violated: the query `com` makes the stored two-label entry read past the
end of the one-label query list and panic (embedded as `none`) instead of
returning `false`. -/
theorem C2_suffix_semantics_panic_on_short_query :
    (AddBlockedDomain "example.com" NewMemoryStore).1 = .ok () ∧
    IsDomainBlocked "example.com" (AddBlockedDomain "example.com" NewMemoryStore).2 = some true ∧
    IsDomainBlocked "foo.example.com" (AddBlockedDomain "example.com" NewMemoryStore).2 = some true ∧
    IsDomainBlocked "other.com" (AddBlockedDomain "example.com" NewMemoryStore).2 = some false ∧
    IsDomainBlocked "com" (AddBlockedDomain "example.com" NewMemoryStore).2 = none :=
  ⟨rfl, rfl, rfl, rfl, rfl⟩

/-! ## C9: RevokeCertificate frame -/

/-- C9: `RevokeCertificate` is total (it returns a store, never an error) and
touches only the revoked-certificate index: every other field of the store is
unchanged — so `GetCertificateByID` answers exactly as before — and the
revoked index is the old one with the revoked certificate installed under its
certificate's ID, silently overwriting any previous binding of that ID. -/
theorem C9_revoke_modifies_only_revoked_index (rc : RevokedCertificate) (s : MemoryStore) :
    (RevokeCertificate rc s).accountsByID = s.accountsByID ∧
    (RevokeCertificate rc s).accountsByKeyID = s.accountsByKeyID ∧
    (RevokeCertificate rc s).ordersByIssuedSerial = s.ordersByIssuedSerial ∧
    (RevokeCertificate rc s).ordersByID = s.ordersByID ∧
    (RevokeCertificate rc s).ordersByAccountID = s.ordersByAccountID ∧
    (RevokeCertificate rc s).authorizationsByID = s.authorizationsByID ∧
    (RevokeCertificate rc s).challengesByID = s.challengesByID ∧
    (RevokeCertificate rc s).certificatesByID = s.certificatesByID ∧
    (RevokeCertificate rc s).externalAccountKeysByID = s.externalAccountKeysByID ∧
    (RevokeCertificate rc s).blockListByDomain = s.blockListByDomain ∧
    (∀ id, GetCertificateByID id (RevokeCertificate rc s) = GetCertificateByID id s) ∧
    (RevokeCertificate rc s).revokedCertificatesByID =
      ainsert rc.Certificate.ID rc s.revokedCertificatesByID ∧
    alookup rc.Certificate.ID (RevokeCertificate rc s).revokedCertificatesByID = some rc :=
  ⟨rfl, rfl, rfl, rfl, rfl, rfl, rfl, rfl, rfl, rfl, fun _ => rfl, rfl,
    alookup_ainsert_self _ _ _⟩

/-! ## C10: AddOrderByIssuedSerial overwrites silently -/

/-- C10: for any order with a non-nil issued-certificate reference,
`AddOrderByIssuedSerial` succeeds against every store — there is no duplicate
check — and installs the order under the certificate's ID, so a subsequent
`GetOrderByIssuedSerial` of that ID returns this order and any order
previously bound to that ID is no longer reachable under it. -/
theorem C10_add_by_issued_serial_overwrites (s : MemoryStore) (o : Order) (c : Certificate)
    (hc : o.CertificateObject = some c) :
    (AddOrderByIssuedSerial o s).1 = .ok () ∧
    (AddOrderByIssuedSerial o s).2 =
      { s with ordersByIssuedSerial := ainsert c.ID o s.ordersByIssuedSerial } ∧
    GetOrderByIssuedSerial c.ID (AddOrderByIssuedSerial o s).2 = .ok o := by
  refine ⟨by simp [AddOrderByIssuedSerial, hc], by simp [AddOrderByIssuedSerial, hc], ?_⟩
  simp [AddOrderByIssuedSerial, hc, GetOrderByIssuedSerial]

/-- Witness for C10 at a store that already indexes serial `X` to a different
order: the add still succeeds and the lookup afterwards returns the new
order. -/
theorem C10_add_by_issued_serial_overwrites_witness :
    orderTwo.CertificateObject = some certX ∧
    alookup "X" storeSerialX.ordersByIssuedSerial = some orderOne ∧
    GetOrderByIssuedSerial "X" (AddOrderByIssuedSerial orderTwo storeSerialX).2 = .ok orderTwo :=
  ⟨rfl, rfl, by
    have h := (C10_add_by_issued_serial_overwrites storeSerialX orderTwo certX rfl).2.2
    simpa using h⟩

/-! ## C4: certificate / revoked-certificate namespace -/

/-- C4 counterexample: in the reachable state holding a live certificate with
ID `X` (and no revoked entry for `X`), `RevokeCertificate` nevertheless
inserts a revoked certificate under `X` — live presence does not block
insertion into the revoked index, refuting the claim's "an ID present in
either index blocks insertion of that ID into the other index". -/
theorem C4_counterexample_revoke_not_blocked :
    (AddCertificate certX NewMemoryStore).1 = .ok 1 ∧
    GetCertificateByID "X" (AddCertificate certX NewMemoryStore).2 = some certX ∧
    alookup "X" (AddCertificate certX NewMemoryStore).2.revokedCertificatesByID = none ∧
    alookup "X" (RevokeCertificate rcX (AddCertificate certX NewMemoryStore).2).revokedCertificatesByID
      = some rcX :=
  ⟨rfl, rfl, rfl, rfl⟩

/-- C4 (amended): the shared namespace is enforced on the live side: for every
store, a non-empty certificate ID already present in either the live or the
revoked index makes `AddCertificate` fail with a Conflict error and leave the
store unchanged — in particular a certificate ID already in the revoked index
blocks insertion of a live certificate with the same ID. -/
theorem C4_shared_namespace_blocks_addCertificate (s : MemoryStore) (cert : Certificate)
    (hne : cert.ID ≠ "")
    (hpresent : (alookup cert.ID s.certificatesByID).isSome = true ∨
                (alookup cert.ID s.revokedCertificatesByID).isSome = true) :
    ∃ msg, AddCertificate cert s = (.error (.conflict msg), s) := by
  unfold AddCertificate
  rcases hpresent with h | h
  · exact ⟨"cert " ++ cert.ID ++ " already exists", by simp [hne, h]⟩
  · by_cases hl : (alookup cert.ID s.certificatesByID).isSome = true
    · exact ⟨"cert " ++ cert.ID ++ " already exists", by simp [hne, hl]⟩
    · exact ⟨"cert " ++ cert.ID ++ " already exists (and is revoked)", by simp [hne, hl, h]⟩

/-- Witness for the amended C4: in the reachable state where `X` sits only in
the revoked index, adding a live certificate with ID `X` fails and changes
nothing. -/
theorem C4_shared_namespace_blocks_addCertificate_witness :
    certX.ID ≠ "" ∧
    (alookup certX.ID (RevokeCertificate rcX NewMemoryStore).revokedCertificatesByID).isSome = true ∧
    ∃ msg, AddCertificate certX (RevokeCertificate rcX NewMemoryStore) =
      (.error (.conflict msg), RevokeCertificate rcX NewMemoryStore) :=
  ⟨by decide, rfl,
    C4_shared_namespace_blocks_addCertificate (RevokeCertificate rcX NewMemoryStore) certX
      (by decide) (Or.inr rfl)⟩

/-! ## C3: ChangeAccountKey -/

/-- C3 counterexample: the new key's fingerprint maps to `acct` itself (the
change is to the account's own key), yet `ChangeAccountKey` fails with the
structured key-conflict error carrying that same account, where the claim
says the operation succeeds. -/
theorem C3_counterexample_self_key_conflict :
    keyToID keyA = .ok (sha256hex 1) ∧
    alookup (sha256hex 1) storeA.accountsByKeyID = some acctA ∧
    ChangeAccountKey acctA keyA storeA = (.error (.existingAccount acctA), storeA) :=
  ⟨rfl, rfl, rfl⟩

/-- C3 (amended): provided both fingerprints are computable,
`ChangeAccountKey` fails with the structured key-conflict error exactly when
the new key's fingerprint already maps to *any* account — including `acct`
itself — and in that case the store is left unchanged; when the new
fingerprint maps to no account the operation succeeds and atomically removes
the old fingerprint entry, installs the updated account under the new
fingerprint and under its ID, and updates the account's key field. -/
theorem C3_change_key_classified (s : MemoryStore) (acct : Account) (newKey : JKey)
    (oldKeyID newKeyID : String)
    (hold : keyToIDOpt acct.Key = .ok oldKeyID)
    (hnew : keyToID newKey = .ok newKeyID) :
    (∀ b, alookup newKeyID s.accountsByKeyID = some b →
        ChangeAccountKey acct newKey s = (.error (.existingAccount b), s)) ∧
    (alookup newKeyID s.accountsByKeyID = none →
        ChangeAccountKey acct newKey s =
          (.ok { acct with Key := some newKey },
            { s with
                accountsByKeyID :=
                  ainsert newKeyID { acct with Key := some newKey }
                    (adelete oldKeyID s.accountsByKeyID)
                accountsByID := ainsert acct.ID { acct with Key := some newKey } s.accountsByID })) := by
  constructor
  · intro b hb
    simp [ChangeAccountKey, hold, hnew, hb]
  · intro hb
    simp [ChangeAccountKey, hold, hnew, hb]

/-- Witness for the amended C3, at the spec's own example: accounts `A` and
`B` both registered; changing `A`'s key to `B`'s key fails with the
key-conflict error carrying `B` and leaves the store exactly as before. -/
theorem C3_change_key_classified_witness :
    keyToIDOpt acctA.Key = .ok (sha256hex 1) ∧
    keyToID keyB = .ok (sha256hex 2) ∧
    alookup (sha256hex 2) storeAB.accountsByKeyID = some acctB ∧
    ChangeAccountKey acctA keyB storeAB = (.error (.existingAccount acctB), storeAB) :=
  ⟨rfl, rfl, rfl,
    (C3_change_key_classified storeAB acctA keyB (sha256hex 1) (sha256hex 2) rfl rfl).1
      acctB rfl⟩


/-! ## C5: account key uniqueness and atomic failure -/

/-- Inversion of a successful `AddAccount`: a fresh ID was picked, the key's
fingerprint was previously unmapped, and the account (carrying the fresh ID)
was installed in both account maps of an otherwise unchanged store. -/
theorem AddAccount_ok_inversion (rands : List String) (a a' : Account)
    (s s' : MemoryStore) (n : Nat) (k : JKey) (kid : String)
    (hk : a.Key = some k) (hfp : keyToID k = .ok kid)
    (h : AddAccount rands a s = some (.ok (n, a'), s')) :
    ∃ acctID,
      pickFreshID s.accountsByID rands = some acctID ∧
      alookup kid s.accountsByKeyID = none ∧
      a' = { a with ID := acctID } ∧
      s' = { s with
        accountsByID := ainsert acctID { a with ID := acctID } s.accountsByID
        accountsByKeyID := ainsert kid { a with ID := acctID } s.accountsByKeyID } := by
  unfold AddAccount at h
  rw [hk] at h
  simp only [hfp] at h
  cases hpick : pickFreshID s.accountsByID rands with
  | none => rw [hpick] at h; simp at h
  | some acctID =>
    simp only [hpick] at h
    by_cases hc : (alookup kid s.accountsByKeyID).isSome = true
    · rw [if_pos hc] at h; simp at h
    · rw [if_neg hc] at h
      simp only [Option.some.injEq, Prod.mk.injEq, Except.ok.injEq] at h
      obtain ⟨⟨-, ha'⟩, hs⟩ := h
      refine ⟨acctID, rfl, Option.not_isSome_iff_eq_none.mp hc, ?_, ?_⟩
      · rw [← ha', hk]
      · rw [← hs, hk]

/-- C5: if `AddAccount` stored `a₁` (as `a₁'`, carrying its generated ID) and
`a₂`'s key has the same fingerprint, then the second `AddAccount` fails with
the conflict error and returns the post-first-add store untouched, in which
`a₁'` is still retrievable unchanged both by its ID and by `a₁`'s key. -/
theorem C5_account_key_unique_atomic
    (rands₁ rands₂ : List String) (a₁ a₂ a₁' : Account) (s₀ s₁ : MemoryStore)
    (n₁ : Nat) (kid : String) (k₁ : JKey)
    (hk₁ : a₁.Key = some k₁)
    (hfp₁ : keyToID k₁ = .ok kid)
    (hfp₂ : keyToIDOpt a₂.Key = .ok kid)
    (hgen : (pickFreshID s₁.accountsByID rands₂).isSome = true)
    (h₁ : AddAccount rands₁ a₁ s₀ = some (.ok (n₁, a₁'), s₁)) :
    AddAccount rands₂ a₂ s₁ = some (.error (.conflict "account with key already exists"), s₁) ∧
    GetAccountByID a₁'.ID s₁ = some a₁' ∧
    GetAccountByKey k₁ s₁ = .ok (some a₁') := by
  obtain ⟨acctID, hpick, hfree, ha', hs⟩ :=
    AddAccount_ok_inversion rands₁ a₁ a₁' s₀ s₁ n₁ k₁ kid hk₁ hfp₁ h₁
  have hmaps : s₁.accountsByKeyID = ainsert kid a₁' s₀.accountsByKeyID := by
    rw [hs, ha']
  have hids : s₁.accountsByID = ainsert acctID a₁' s₀.accountsByID := by
    rw [hs, ha']
  have hid : a₁'.ID = acctID := by rw [ha']
  have hlook : alookup kid s₁.accountsByKeyID = some a₁' := by
    rw [hmaps, alookup_ainsert_self]
  refine ⟨?_, ?_, ?_⟩
  · cases ha₂ : a₂.Key with
    | none => rw [ha₂] at hfp₂; simp [keyToIDOpt] at hfp₂
    | some k₂ =>
      rw [ha₂] at hfp₂
      have hk₂ : keyToID k₂ = .ok kid := hfp₂
      obtain ⟨id₂, hid₂⟩ := Option.isSome_iff_exists.mp hgen
      unfold AddAccount
      rw [ha₂]
      simp only [hk₂, hid₂, hlook, Option.isSome_some, if_true]
  · rw [GetAccountByID, hids, hid, alookup_ainsert_self]
  · simp only [GetAccountByKey, hfp₁, hlook]

def acctA1 : Account := { ID := "id1", Key := some keyA, Status := "valid" }

/-- The store after `AddAccount` stored `acctA` under the generated ID `id1`. -/
def storeAfterA : MemoryStore :=
  { NewMemoryStore with
      accountsByID := [("id1", acctA1)]
      accountsByKeyID := [(sha256hex 1, acctA1)] }

/-- Witness for C5: two accounts whose keys carry the same raw material (the
second one wrapped in a JSONWebKey container), hence identical fingerprints;
the first add succeeds, the second fails with the conflict error leaving the
store as it was, and account one stays retrievable by ID and by key. -/
theorem C5_account_key_unique_atomic_witness :
    acctA.Key = some keyA ∧
    keyToID keyA = .ok (sha256hex 1) ∧
    keyToIDOpt (Account.Key { acctB with Key := some (JKey.wrap keyA) }) = .ok (sha256hex 1) ∧
    (pickFreshID storeAfterA.accountsByID ["id2"]).isSome = true ∧
    AddAccount ["id1"] acctA NewMemoryStore = some (.ok (1, acctA1), storeAfterA) ∧
    AddAccount ["id2"] { acctB with Key := some (JKey.wrap keyA) } storeAfterA =
      some (.error (.conflict "account with key already exists"), storeAfterA) ∧
    GetAccountByID acctA1.ID storeAfterA = some acctA1 ∧
    GetAccountByKey keyA storeAfterA = .ok (some acctA1) := by
  have h := C5_account_key_unique_atomic ["id1"] ["id2"] acctA
      { acctB with Key := some (JKey.wrap keyA) } acctA1 NewMemoryStore storeAfterA 1
      (sha256hex 1) keyA rfl rfl rfl (by decide) rfl
  exact ⟨rfl, rfl, rfl, by decide, rfl, h.1, h.2.1, h.2.2⟩

/-! ## C6: EAB key store -/

/-- The store after a successful `AddExternalAccountKeyByID`: the decoded raw
bytes installed under the key ID. -/
def eabStored (s : MemoryStore) (keyID : String) (dec : List Nat) : MemoryStore :=
  { s with externalAccountKeysByID := ainsert keyID dec s.externalAccountKeysByID }

/-- C6: the EAB key store is write-once with fully classified failures: empty
arguments give the validation error, undecodable keys the decode error, a
present key ID the conflict error — each leaving the store untouched; a first
add of a valid key under an absent key ID stores the base64url-decoded bytes,
after which the getter returns them and every later add under that key ID
fails without touching the store. -/
theorem C6_eab_write_once
    (s : MemoryStore) (keyID key : String) (dec : List Nat)
    (hkid : keyID.length ≠ 0) (hkey : key.length ≠ 0)
    (hdec : decodeRawURL key = some dec)
    (habsent : alookup keyID s.externalAccountKeysByID = none) :
    (∀ kid' k' : String, k'.length = 0 ∨ kid'.length = 0 →
        AddExternalAccountKeyByID kid' k' s =
          (.error (.validation "key ID and key must not be empty"), s)) ∧
    (∀ kid' k' : String, k'.length ≠ 0 → kid'.length ≠ 0 → decodeRawURL k' = none →
        AddExternalAccountKeyByID kid' k' s =
          (.error (.decodeError ("failed to decode base64 URL encoded key " ++ k')), s)) ∧
    AddExternalAccountKeyByID keyID key s = (.ok (), eabStored s keyID dec) ∧
    GetExtenalAccountKeyByID keyID (eabStored s keyID dec) = some dec ∧
    (∀ k' : String, ∃ e, AddExternalAccountKeyByID keyID k' (eabStored s keyID dec) =
        (.error e, eabStored s keyID dec)) ∧
    (∀ k' : String, k'.length ≠ 0 → decodeRawURL k' ≠ none →
        AddExternalAccountKeyByID keyID k' (eabStored s keyID dec) =
          (.error (.conflict ("key ID " ++ keyID ++ " is already present")),
            eabStored s keyID dec)) := by
  have hpresent : alookup keyID (eabStored s keyID dec).externalAccountKeysByID = some dec := by
    simp [eabStored]
  refine ⟨?_, ?_, ?_, ?_, ?_, ?_⟩
  · intro kid' k' h
    simp [AddExternalAccountKeyByID, h]
  · intro kid' k' hk' hkid' hdec'
    simp [AddExternalAccountKeyByID, hk', hkid', hdec']
  · simp [AddExternalAccountKeyByID, hkey, hkid, hdec, habsent, eabStored]
  · simp [GetExtenalAccountKeyByID, eabStored]
  · intro k'
    by_cases hk' : k'.length = 0
    · exact ⟨.validation "key ID and key must not be empty",
        by simp [AddExternalAccountKeyByID, hk']⟩
    · cases hdec' : decodeRawURL k' with
      | none =>
        exact ⟨.decodeError ("failed to decode base64 URL encoded key " ++ k'),
          by simp [AddExternalAccountKeyByID, hk', hkid, hdec']⟩
      | some d =>
        exact ⟨.conflict ("key ID " ++ keyID ++ " is already present"),
          by simp [AddExternalAccountKeyByID, hk', hkid, hdec', hpresent]⟩
  · intro k' hk' hdec'
    cases hd : decodeRawURL k' with
    | none => exact absurd hd hdec'
    | some d => simp [AddExternalAccountKeyByID, hk', hkid, hd, hpresent]

/-- Witness for C6 on the empty store: `kid1` with the valid unpadded
base64url key `QUJD` (raw bytes `ABC`); a second add under `kid1` with the
different valid key `QUVG` fails with the conflict error, and the getter
still returns the first decoded bytes. -/
theorem C6_eab_write_once_witness :
    decodeRawURL "QUJD" = some [65, 66, 67] ∧
    alookup "kid1" NewMemoryStore.externalAccountKeysByID = none ∧
    AddExternalAccountKeyByID "kid1" "QUJD" NewMemoryStore =
      (.ok (), eabStored NewMemoryStore "kid1" [65, 66, 67]) ∧
    GetExtenalAccountKeyByID "kid1" (eabStored NewMemoryStore "kid1" [65, 66, 67]) =
      some [65, 66, 67] ∧
    AddExternalAccountKeyByID "kid1" "QUVG" (eabStored NewMemoryStore "kid1" [65, 66, 67]) =
      (.error (.conflict "key ID kid1 is already present"),
        eabStored NewMemoryStore "kid1" [65, 66, 67]) := by
  have h := C6_eab_write_once NewMemoryStore "kid1" "QUJD" [65, 66, 67]
    (by decide) (by decide) rfl rfl
  exact ⟨rfl, rfl, h.2.2.1, h.2.2.2.1, h.2.2.2.2.2 "QUVG" (by decide) (by decide)⟩

/-! ## C7 / C8: order reads recompute status -/

/-- If the status function succeeds on every order of the list, the
recomputation loop succeeds, and each order whose status it computed is in
the result with that status written back. -/
theorem recomputeStatuses_all_some (getStatus : Order → Option String) (l : List Order)
    (h : ∀ o ∈ l, (getStatus o).isSome = true) :
    ∃ l', recomputeStatuses getStatus l = some l' ∧
      ∀ o ∈ l, ∀ st, getStatus o = some st → { o with Status := st } ∈ l' := by
  induction l with
  | nil => exact ⟨[], rfl, by simp⟩
  | cons o os ih =>
    obtain ⟨st, hst⟩ := Option.isSome_iff_exists.mp (h o (List.mem_cons_self o os))
    obtain ⟨l', hl', hmem⟩ := ih (fun o' ho' => h o' (List.mem_cons_of_mem o ho'))
    refine ⟨{ o with Status := st } :: l', by simp [recomputeStatuses, hst, hl'], ?_⟩
    intro o' ho' st' hst'
    rcases List.mem_cons.mp ho' with rfl | hmem'
    · rw [hst'] at hst
      obtain rfl : st = st' := (Option.some.inj hst).symm
      exact List.mem_cons_self _ _
    · exact List.mem_cons_of_mem _ (hmem o' hmem' st' hst')

/-- Every order in a successful recomputation result arises from an order of
the input list by writing back its freshly computed status. -/
theorem recomputeStatuses_mem (getStatus : Order → Option String) (l l' : List Order)
    (h : recomputeStatuses getStatus l = some l') :
    ∀ ord ∈ l', ∃ o₀ ∈ l, getStatus o₀ = some ord.Status ∧
      ord = { o₀ with Status := ord.Status } := by
  induction l generalizing l' with
  | nil =>
    simp only [recomputeStatuses, Option.some.injEq] at h
    subst h
    simp
  | cons o os ih =>
    simp only [recomputeStatuses] at h
    cases hst : getStatus o with
    | none => rw [hst] at h; exact absurd h (by simp)
    | some st =>
      rw [hst] at h
      cases hrec : recomputeStatuses getStatus os with
      | none => rw [hrec] at h; exact absurd h (by simp)
      | some rest =>
        rw [hrec] at h
        simp only [Option.some.injEq] at h
        subst h
        intro ord hord
        rcases List.mem_cons.mp hord with rfl | hmem'
        · exact ⟨o, List.mem_cons_self o os, hst, rfl⟩
        · obtain ⟨o₀, ho₀, hg, he⟩ := ih rest hrec ord hmem'
          exact ⟨o₀, List.mem_cons_of_mem o ho₀, hg, he⟩

/-- If the status function fails on some member, the recomputation loop
fails (the Go loop panics at the first failure). -/
theorem recomputeStatuses_none_of_mem (getStatus : Order → Option String) (l : List Order)
    (o₀ : Order) (hmem : o₀ ∈ l) (hfail : getStatus o₀ = none) :
    recomputeStatuses getStatus l = none := by
  induction l with
  | nil => exact absurd hmem (List.not_mem_nil o₀)
  | cons o os ih =>
    rcases List.mem_cons.mp hmem with rfl | hmem'
    · simp [recomputeStatuses, hfail]
    · simp only [recomputeStatuses]
      cases hst : getStatus o with
      | none => rfl
      | some st => rw [ih hmem']

/-- C7: `AddOrder` requires a non-empty ID and fails with Conflict on a
duplicate ID, leaving the store unchanged in both failure cases; after a
successful add, `GetOrderByID` returns the order (with its status freshly
recomputed and written back) and the list `GetOrdersByAccountID` returns for
the order's account contains it — the account's list having been created if
absent. -/
theorem C7_add_order_consistency
    (s s' : MemoryStore) (o : Order) (n : Nat)
    (getStatus : Order → Option String) (st : String)
    (hadd : AddOrder o s = (.ok n, s'))
    (hst : getStatus o = some st)
    (hall : ∀ o' ∈ (alookup o.AccountID s.ordersByAccountID).getD [],
      (getStatus o').isSome = true) :
    (∀ o₀ : Order, o₀.ID = "" →
        AddOrder o₀ s =
          (.error (.validation "order must have a non-empty ID to add to MemoryStore"), s)) ∧
    (∀ o₀ : Order, o₀.ID ≠ "" → (alookup o₀.ID s.ordersByID).isSome = true →
        AddOrder o₀ s = (.error (.conflict ("order " ++ o₀.ID ++ " already exists")), s)) ∧
    GetOrderByID getStatus o.ID s' =
      some (some { o with Status := st },
        { s' with ordersByID := ainsert o.ID { o with Status := st } s'.ordersByID }) ∧
    (∃ l s'', GetOrdersByAccountID getStatus o.AccountID s' = some (some l, s'') ∧
        { o with Status := st } ∈ l) := by
  -- invert the successful add
  unfold AddOrder at hadd
  by_cases hid : o.ID = ""
  · simp [hid] at hadd
  · rw [if_neg hid] at hadd
    by_cases hdup : (alookup o.ID s.ordersByID).isSome = true
    · rw [if_pos hdup] at hadd; simp at hadd
    · rw [if_neg hdup] at hadd
      simp only [Prod.mk.injEq] at hadd
      obtain ⟨-, hs⟩ := hadd
      have hbyID : s'.ordersByID = ainsert o.ID o s.ordersByID := by rw [← hs]
      have hbyAcct : s'.ordersByAccountID =
          ainsert o.AccountID ((alookup o.AccountID s.ordersByAccountID).getD [] ++ [o])
            s.ordersByAccountID := by rw [← hs]
      refine ⟨?_, ?_, ?_, ?_⟩
      · intro o₀ h₀
        simp [AddOrder, h₀]
      · intro o₀ h₀ hdup₀
        simp [AddOrder, h₀, hdup₀]
      · simp only [GetOrderByID, hbyID, alookup_ainsert_self, hst]
      · have hallapp : ∀ o' ∈ (alookup o.AccountID s.ordersByAccountID).getD [] ++ [o],
            (getStatus o').isSome = true := by
          intro o' ho'
          rcases List.mem_append.mp ho' with hl | hr
          · exact hall o' hl
          · rw [List.mem_singleton.mp hr, hst]; rfl
        obtain ⟨l, hl, hmem⟩ := recomputeStatuses_all_some getStatus _ hallapp
        have heq : GetOrdersByAccountID getStatus o.AccountID s' =
            some (some l,
              { s' with ordersByAccountID := ainsert o.AccountID l s'.ordersByAccountID }) := by
          simp only [GetOrdersByAccountID, hbyAcct, alookup_ainsert_self, hl]
        exact ⟨l, _, heq, hmem o (List.mem_append_right _ (List.mem_singleton_self o)) st hst⟩

/-- A status-recomputation function that always succeeds with `ready`. -/
def gsReady : Order → Option String := fun _ => some "ready"

/-- A status-recomputation function that always fails. -/
def gsFail : Order → Option String := fun _ => none

/-- The store after `AddOrder` stored `orderOne` in the empty store. -/
def storeOrder1 : MemoryStore :=
  { NewMemoryStore with
      ordersByAccountID := [("a1", [orderOne])]
      ordersByID := [("o1", orderOne)] }

/-- Witness for C7: adding `orderOne` to the empty store succeeds; both reads
then find it, with its status recomputed to `ready`. -/
theorem C7_add_order_consistency_witness :
    AddOrder orderOne NewMemoryStore = (.ok 1, storeOrder1) ∧
    gsReady orderOne = some "ready" ∧
    GetOrderByID gsReady orderOne.ID storeOrder1 =
      some (some { orderOne with Status := "ready" },
        { storeOrder1 with
            ordersByID := ainsert orderOne.ID { orderOne with Status := "ready" }
              storeOrder1.ordersByID }) ∧
    (∃ l s'', GetOrdersByAccountID gsReady orderOne.AccountID storeOrder1 = some (some l, s'') ∧
        { orderOne with Status := "ready" } ∈ l) := by
  have h := C7_add_order_consistency NewMemoryStore storeOrder1 orderOne 1 gsReady "ready"
    rfl rfl (by intro o' ho'; simp [NewMemoryStore, alookup] at ho')
  exact ⟨rfl, rfl, h.2.2.1, h.2.2.2⟩

/-- C8: whatever status function the collaborator supplies, every order value
returned by `GetOrderByID` or `GetOrdersByAccountID` carries the status that
function just computed from the stored order (written back into the order),
and if the status computation fails on a stored order the read aborts (the Go
code panics) instead of returning any order. -/
theorem C8_status_recomputed_on_read (getStatus : Order → Option String) :
    (∀ id s ord s₂, GetOrderByID getStatus id s = some (some ord, s₂) →
      ∃ o₀, alookup id s.ordersByID = some o₀ ∧ getStatus o₀ = some ord.Status ∧
        ord = { o₀ with Status := ord.Status }) ∧
    (∀ id s o₀, alookup id s.ordersByID = some o₀ → getStatus o₀ = none →
      GetOrderByID getStatus id s = none) ∧
    (∀ aid s l s₂, GetOrdersByAccountID getStatus aid s = some (some l, s₂) →
      ∀ ord ∈ l, ∃ o₀ ∈ (alookup aid s.ordersByAccountID).getD [],
        getStatus o₀ = some ord.Status ∧ ord = { o₀ with Status := ord.Status }) ∧
    (∀ aid s orders o₀, alookup aid s.ordersByAccountID = some orders → o₀ ∈ orders →
      getStatus o₀ = none → GetOrdersByAccountID getStatus aid s = none) := by
  refine ⟨?_, ?_, ?_, ?_⟩
  · intro id s ord s₂ h
    unfold GetOrderByID at h
    cases hl : alookup id s.ordersByID with
    | none => simp only [hl] at h; simp at h
    | some o₀ =>
      simp only [hl] at h
      cases hg : getStatus o₀ with
      | none => simp only [hg] at h; simp at h
      | some st =>
        simp only [hg, Option.some.injEq, Prod.mk.injEq] at h
        obtain ⟨hord, -⟩ := h
        subst hord
        exact ⟨o₀, rfl, by simp [hg], by simp⟩
  · intro id s o₀ hl hfail
    simp only [GetOrderByID, hl, hfail]
  · intro aid s l s₂ h
    unfold GetOrdersByAccountID at h
    cases hl : alookup aid s.ordersByAccountID with
    | none => simp only [hl] at h; simp at h
    | some orders =>
      simp only [hl] at h
      cases hrec : recomputeStatuses getStatus orders with
      | none => simp only [hrec] at h; simp at h
      | some l₀ =>
        simp only [hrec, Option.some.injEq, Prod.mk.injEq] at h
        obtain ⟨hle, -⟩ := h
        subst hle
        intro ord hord
        obtain ⟨o₀, ho₀, hg, he⟩ := recomputeStatuses_mem getStatus orders l₀ hrec ord hord
        exact ⟨o₀, by simpa using ho₀, hg, he⟩
  · intro aid s orders o₀ hl hmem hfail
    have hnone := recomputeStatuses_none_of_mem getStatus orders o₀ hmem hfail
    simp only [GetOrdersByAccountID, hl, hnone]

/-- Witness for C8: reading `o1` with an always-`ready` status function
yields the stored order with status `ready`; reading it with a failing status
function aborts. -/
theorem C8_status_recomputed_on_read_witness :
    (∃ o₀, alookup "o1" storeOrder1.ordersByID = some o₀ ∧
        gsReady o₀ = some (Order.Status { orderOne with Status := "ready" }) ∧
        ({ orderOne with Status := "ready" } : Order) =
          { o₀ with Status := Order.Status { orderOne with Status := "ready" } }) ∧
    GetOrderByID gsFail "o1" storeOrder1 = none :=
  ⟨(C8_status_recomputed_on_read gsReady).1 "o1" storeOrder1
      { orderOne with Status := "ready" }
      { storeOrder1 with
          ordersByID := ainsert "o1" { orderOne with Status := "ready" } storeOrder1.ordersByID }
      rfl,
    (C8_status_recomputed_on_read gsFail).2.1 "o1" storeOrder1 orderOne rfl rfl⟩
